import Mathlib

/-!
Shallow embedding of the amneziawg-exporter core (src/exporter.py) and proofs
about its sampling-and-publishing cycle.

Modelling conventions:
- Configuration values come from decouple without a cast, so every configured
  value is a string; Python truthiness of such a string is `pybool`.
- `str.splitlines` and `str.split()` are modelled for newline-separated,
  ASCII-whitespace text, the format of the awg show report.
- Exceptions (IndexError in parse, KeyError on malformed clients-table
  entries) are modelled with Option/Except; the float conversion done by
  Gauge.set is not modelled, the gauge keeps the string value passed to set.
- External effects are passed in as values: the stdout of the status command
  as a string, the clients-table file read as an Except (error = any
  read or JSON failure), the gauge registry as an explicit state record.
-/

/-- Python truthiness of a string: bool(s) is True iff s is non-empty. The
exporter reads clients_table_enabled via decouple without a cast, so the
test in update_metrics applies bool to a string. -/
def pybool (s : String) : Bool := s ≠ ""

/-- Accumulator pass splitting a character list into maximal non-whitespace
words, discarding the whitespace. -/
def wordsAux : List Char → List Char → List (List Char)
  | [], acc => if acc = [] then [] else [acc.reverse]
  | c :: cs, acc =>
    if c.isWhitespace then
      if acc = [] then wordsAux cs [] else acc.reverse :: wordsAux cs []
    else wordsAux cs (c :: acc)

/-- Python str.split() with no separator: split on whitespace runs and drop
empty pieces. -/
def pySplitWhitespace (s : String) : List String :=
  (wordsAux s.data []).map String.mk

/-- Drop the leading whitespace characters. -/
def dropLeadingWS : List Char → List Char
  | [] => []
  | c :: cs => if c.isWhitespace then dropLeadingWS cs else c :: cs

/-- Python str.strip(): drop leading and trailing whitespace. -/
def pyStrip (s : String) : String :=
  String.mk (dropLeadingWS ((dropLeadingWS s.data.reverse).reverse))

/-- Accumulator pass splitting a character list at every newline. -/
def splitlinesAux : List Char → List Char → List (List Char)
  | [], acc => [acc.reverse]
  | c :: cs, acc =>
    if c = '\n' then acc.reverse :: splitlinesAux cs []
    else splitlinesAux cs (c :: acc)

/-- Python str.splitlines() on stripped text without carriage returns: the
empty string has no lines, otherwise split on the newline character. -/
def pySplitlines (s : String) : List String :=
  if s.data = [] then [] else (splitlinesAux s.data []).map String.mk

/-- One peer dictionary built by AwgShowWrapper.parse: the keys peer,
latest_handshake, received and sent, with the raw string fields. -/
structure PeerRecord where
  peer : String
  latest_handshake : String
  received : String
  sent : String
deriving Repr, DecidableEq

/-- One element of the clients table JSON array. clientId = none models an
object whose clientId key is missing, so that accessing it raises KeyError;
clientName = none models a missing userData or clientName key. -/
structure ClientEntry where
  clientId : Option String
  clientName : Option String
deriving Repr, DecidableEq

namespace AwgShowWrapper

/-- The per-line loop of AwgShowWrapper.parse over the lines after the
header. A line with fewer than 6 whitespace fields is skipped. For a line
passing the length check the source reads parts[1], parts[5], parts[6] and
parts[7]; on a line of 6 or 7 fields parts[6] or parts[7] raises IndexError,
modelled by the result none, which aborts the whole parse. -/
def parseLines : List String → Option (List PeerRecord)
  | [] => some []
  | line :: rest =>
    let parts := pySplitWhitespace line
    if 6 ≤ parts.length then
      match parts[1]?, parts[5]?, parts[6]?, parts[7]? with
      | some p1, some p5, some p6, some p7 =>
        (parseLines rest).map (fun tl =>
          { peer := p1, latest_handshake := p5, received := p6, sent := p7 } :: tl)
      | _, _, _, _ => none
    else
      parseLines rest

/-- AwgShowWrapper.parse: strip the text block, split it into lines, drop
the first (host) line, and run the per-line loop. none models an IndexError
escaping parse. -/
def parse (text_block : String) : Option (List PeerRecord) :=
  parseLines ((pySplitlines (pyStrip text_block)).drop 1)

end AwgShowWrapper

/-- The lines after the header line of a report, as parse sees them. -/
def postHeaderLines (text : String) : List String :=
  (pySplitlines (pyStrip text)).drop 1

/-- Whether a report line passes the length check of parse. -/
def acceptedLine (line : String) : Bool := 6 ≤ (pySplitWhitespace line).length

/-- The field extraction parse performs on an accepted line: fields 1, 5, 6
and 7 of the whitespace split (defaults never used on lines of 8 or more
fields). -/
def extractRecord (line : String) : PeerRecord :=
  let parts := pySplitWhitespace line
  { peer := parts.getD 1 "", latest_handshake := parts.getD 5 "",
    received := parts.getD 6 "", sent := parts.getD 7 "" }

/-- A labeled prometheus gauge family: a map from (peer, client_name) label
pairs to the most recently set value, none for a child never created. -/
def GaugeMap : Type := String × String → Option String

/-- Gauge.labels(...).set(value): replace the value of one label pair. -/
def GaugeMap.set (m : GaugeMap) (k : String × String) (v : String) : GaugeMap :=
  fun k2 => if k2 = k then some v else m k2

/-- The gauge registry of the Exporter: the three per-peer gauge families
and the label-less status gauge (none = never set since startup). -/
structure GaugeState where
  sent_bytes_metric : GaugeMap
  received_bytes_metric : GaugeMap
  latest_handshake_metric : GaugeMap
  status : Option Nat

/-- The registry as built by Exporter.__init__: no gauge child exists and
status has never been set. -/
def emptyGauges : GaugeState :=
  { sent_bytes_metric := fun _ => none
    received_bytes_metric := fun _ => none
    latest_handshake_metric := fun _ => none
    status := none }

/-- Apply a list of label-value writes to one gauge family in order. -/
def applyWrites : List ((String × String) × String) → GaugeMap → GaugeMap
  | [], m => m
  | (k, v) :: ws, m => applyWrites ws (m.set k v)

/-- The last value a list of writes assigns to a label pair, if any. -/
def lastVal : List ((String × String) × String) → String × String → Option String
  | [], _ => none
  | (k, v) :: ws, k2 =>
    match lastVal ws k2 with
    | some v2 => some v2
    | none => if k2 = k then some v else none

namespace Exporter

/-- The configuration fields consumed by the modelled methods, with the
string values decouple returns (the other keys of exporter_config are only
handed to external collaborators). -/
structure Config where
  ops_mode : String
  clients_table_enabled : String
deriving Repr, DecidableEq

/-- Exporter.read_clients_table: json.load either returns the parsed array
or raises; the file read and JSON parse are externalized as an Except value.
Every exception is caught and the empty list returned. -/
def read_clients_table (file : Except Unit (List ClientEntry)) : List ClientEntry :=
  match file with
  | Except.ok tbl => tbl
  | Except.error _ => []

/-- The generator expression of update_metrics resolving one peer id against
the clients table: a lazy first-match scan returning the matching clientName,
with default value unidentified. none models a KeyError raised while
examining an entry (missing clientId, or missing userData or clientName on
the first match). -/
def resolve (peer_id : String) : List ClientEntry → Option String
  | [] => some "unidentified"
  | c :: rest =>
    match c.clientId with
    | none => none
    | some cid =>
      if cid = peer_id then
        match c.clientName with
        | none => none
        | some name => some name
      else resolve peer_id rest

/-- The three gauge writes of one iteration of the peer loop of
update_metrics, keyed by (peer, client_name). -/
def write_peer (st : GaugeState) (p : PeerRecord) (client_name : String) : GaugeState :=
  { st with
    sent_bytes_metric := st.sent_bytes_metric.set (p.peer, client_name) p.sent
    received_bytes_metric := st.received_bytes_metric.set (p.peer, client_name) p.received
    latest_handshake_metric := st.latest_handshake_metric.set (p.peer, client_name) p.latest_handshake }

/-- The for-loop of update_metrics over the parsed peers. Except.error
carries the gauge state at the point where a KeyError escaped the
resolution expression, with the writes of the earlier iterations applied. -/
def set_peers (clients_table : List ClientEntry) :
    List PeerRecord → GaugeState → Except GaugeState GaugeState
  | [], st => Except.ok st
  | p :: rest, st =>
    match resolve p.peer clients_table with
    | none => Except.error st
    | some client_name => set_peers clients_table rest (write_peer st p client_name)

/-- The (peer record, resolved name) pairs the peer loop writes before the
first resolution failure; all of them when no entry is malformed. -/
def peerWrites (clients_table : List ClientEntry) :
    List PeerRecord → List (PeerRecord × String)
  | [] => []
  | p :: rest =>
    match resolve p.peer clients_table with
    | none => []
    | some n => (p, n) :: peerWrites clients_table rest

/-- Whether the peer loop runs to completion without a resolution failure. -/
def peersOk (clients_table : List ClientEntry) : List PeerRecord → Bool
  | [] => true
  | p :: rest => (resolve p.peer clients_table).isSome && peersOk clients_table rest

/-- Apply a list of peer writes to the gauge state in order. -/
def applyPeerWrites : List (PeerRecord × String) → GaugeState → GaugeState
  | [], st => st
  | (p, n) :: ws, st => applyPeerWrites ws (write_peer st p n)

/-- The writes a peer-write list performs on the sent_bytes family. -/
def sentWrites (ws : List (PeerRecord × String)) : List ((String × String) × String) :=
  ws.map (fun w => ((w.1.peer, w.2), w.1.sent))

/-- The writes a peer-write list performs on the received_bytes family. -/
def receivedWrites (ws : List (PeerRecord × String)) : List ((String × String) × String) :=
  ws.map (fun w => ((w.1.peer, w.2), w.1.received))

/-- The writes a peer-write list performs on the latest_handshake family. -/
def handshakeWrites (ws : List (PeerRecord × String)) : List ((String × String) × String) :=
  ws.map (fun w => ((w.1.peer, w.2), w.1.latest_handshake))

/-- The body of the try block of Exporter.update_metrics: parse the command
output; on an empty parse set status to 0 and return; otherwise take the
clients table (empty unless bool(clients_table_enabled) is truthy), run the
peer loop and set status to 1. Except.error carries the state at the point
an exception was raised. -/
def try_update (cfg : Config) (awg_show_result : String)
    (clients_file : Except Unit (List ClientEntry)) (st : GaugeState) :
    Except GaugeState GaugeState :=
  match AwgShowWrapper.parse awg_show_result with
  | none => Except.error st
  | some [] => Except.ok { st with status := some 0 }
  | some (p :: ps) =>
    let clients_table :=
      if !(pybool cfg.clients_table_enabled) then []
      else read_clients_table clients_file
    match set_peers clients_table (p :: ps) st with
    | Except.error st2 => Except.error st2
    | Except.ok st2 => Except.ok { st2 with status := some 1 }

/-- Exporter.update_metrics: the try body under the top-level except that
catches every exception, logs it, and leaves the state reached so far. -/
def update_metrics (cfg : Config) (awg_show_result : String)
    (clients_file : Except Unit (List ClientEntry)) (st : GaugeState) : GaugeState :=
  match try_update cfg awg_show_result clients_file st with
  | Except.ok st2 => st2
  | Except.error st2 => st2

/-- Whether the cycle body raised, that is whether the except branch of
update_metrics ran. -/
def cycleFailed (r : Except GaugeState GaugeState) : Bool :=
  match r with
  | Except.error _ => true
  | Except.ok _ => false

/-- The observable steps of one iteration of the while-True body of
Exporter.main_loop on the exception-free path: one update_metrics cycle,
then a metrics-file write when ops_mode is metricsfile or oneshot, then the
inter-cycle sleep unless the oneshot break fires first. -/
inductive LoopEvent where
  | cycle
  | fileWrite
  | sleep
deriving Repr, DecidableEq

/-- Events of one loop iteration of Exporter.main_loop. -/
def loop_iter_events (cfg : Config) : List LoopEvent :=
  LoopEvent.cycle ::
    ((if cfg.ops_mode = "metricsfile" ∨ cfg.ops_mode = "oneshot"
        then [LoopEvent.fileWrite] else []) ++
     (if cfg.ops_mode = "oneshot" then [] else [LoopEvent.sleep]))

/-- Exporter.main_loop unrolled with fuel: each iteration emits its events
and the loop repeats unless the oneshot break terminated it; the fuel only
bounds the unrolling of the otherwise endless loop. -/
def main_loop_events (cfg : Config) : Nat → List LoopEvent
  | 0 => []
  | fuel + 1 =>
    loop_iter_events cfg ++
      (if cfg.ops_mode = "oneshot" then [] else main_loop_events cfg fuel)

end Exporter

/-- A configuration with the default clients_table_enabled value, the
string from the exporter_config defaults. -/
def cfgHttpFalse : Exporter.Config :=
  { ops_mode := "http", clients_table_enabled := "false" }

/-- A configuration whose clients-table flag is the string true. -/
def cfgHttpTrue : Exporter.Config :=
  { ops_mode := "http", clients_table_enabled := "true" }

/-- A oneshot-mode configuration. -/
def cfgOneshot : Exporter.Config :=
  { ops_mode := "oneshot", clients_table_enabled := "false" }

/-- A report with a header line and one well-formed peer line. -/
def reportOnePeer : String := "interface wg0\nf0 P1 f2 f3 f4 5 100 200"

/-- A report with a header line and two well-formed peer lines. -/
def reportTwoPeers : String :=
  "interface wg0\nf0 P1 f2 f3 f4 5 100 200\nf0 P2 f2 f3 f4 6 300 400"

/-- A report whose single peer line has exactly 6 whitespace fields, so it
passes the length check but the read of parts[6] raises IndexError. -/
def reportSixFields : String := "header line\nf0 P1 f2 f3 f4 f5"

/-- A report with a line of fewer than 6 fields between two peer lines. -/
def reportWithShortLine : String :=
  "interface wg0\nf0 P1 f2 f3 f4 5 100 200\nbad\nf0 P2 f2 f3 f4 6 300 400"

/-- A successfully read clients table identifying P1 as alice. -/
def tableP1Alice : Except Unit (List ClientEntry) :=
  Except.ok [{ clientId := some "P1", clientName := some "alice" }]

/-- A successfully read clients table whose second object is missing its
clientId key. -/
def tableWithBadEntry : Except Unit (List ClientEntry) :=
  Except.ok [{ clientId := some "P1", clientName := some "alice" },
             { clientId := none, clientName := none }]

/-- A well-formed clients table in which the id K1 occurs twice with
different names. -/
def dupTable : List ClientEntry :=
  [{ clientId := some "K1", clientName := some "first" },
   { clientId := some "K2", clientName := some "second" },
   { clientId := some "K1", clientName := some "third" }]

/-!
Theorems. Helper lemmas come first, then one theorem per claim with its
witness or counterexample.
-/

theorem GaugeState.ext2 {a b : GaugeState}
    (h1 : a.sent_bytes_metric = b.sent_bytes_metric)
    (h2 : a.received_bytes_metric = b.received_bytes_metric)
    (h3 : a.latest_handshake_metric = b.latest_handshake_metric)
    (h4 : a.status = b.status) : a = b := by
  cases a; cases b; simp_all

theorem applyWrites_apply (ws : List ((String × String) × String)) (m : GaugeMap)
    (k : String × String) :
    applyWrites ws m k =
      match lastVal ws k with
      | some v => some v
      | none => m k := by
  induction ws generalizing m with
  | nil => rfl
  | cons w ws ih =>
    obtain ⟨k0, v0⟩ := w
    simp only [applyWrites, lastVal]
    rw [ih (m.set k0 v0) ]
    cases h : lastVal ws k with
    | some v => rfl
    | none =>
      simp only [GaugeMap.set]
      by_cases hk : k = k0
      · rw [if_pos hk, if_pos hk]
      · rw [if_neg hk, if_neg hk]

theorem applyWrites_idem (ws : List ((String × String) × String)) (m : GaugeMap) :
    applyWrites ws (applyWrites ws m) = applyWrites ws m := by
  funext k
  rw [applyWrites_apply ws (applyWrites ws m) k, applyWrites_apply ws m k]
  cases h : lastVal ws k with
  | some v => rfl
  | none => rfl

namespace Exporter

theorem applyPeerWrites_components (ws : List (PeerRecord × String)) (st : GaugeState) :
    (applyPeerWrites ws st).sent_bytes_metric
        = applyWrites (sentWrites ws) st.sent_bytes_metric
    ∧ (applyPeerWrites ws st).received_bytes_metric
        = applyWrites (receivedWrites ws) st.received_bytes_metric
    ∧ (applyPeerWrites ws st).latest_handshake_metric
        = applyWrites (handshakeWrites ws) st.latest_handshake_metric
    ∧ (applyPeerWrites ws st).status = st.status := by
  induction ws generalizing st with
  | nil => exact ⟨rfl, rfl, rfl, rfl⟩
  | cons w ws ih =>
    obtain ⟨p, n⟩ := w
    simpa [applyPeerWrites, sentWrites, receivedWrites, handshakeWrites, write_peer,
      applyWrites] using ih (write_peer st p n)

theorem applyPeerWrites_idem (ws : List (PeerRecord × String)) (st : GaugeState) :
    applyPeerWrites ws (applyPeerWrites ws st) = applyPeerWrites ws st := by
  obtain ⟨h1, h2, h3, h4⟩ := applyPeerWrites_components ws (applyPeerWrites ws st)
  obtain ⟨g1, g2, g3, g4⟩ := applyPeerWrites_components ws st
  apply GaugeState.ext2
  · rw [h1, g1, applyWrites_idem]
  · rw [h2, g2, applyWrites_idem]
  · rw [h3, g3, applyWrites_idem]
  · rw [h4, g4]

theorem applyPeerWrites_set_status (ws : List (PeerRecord × String)) (st : GaugeState)
    (x : Option Nat) :
    applyPeerWrites ws { st with status := x }
      = { applyPeerWrites ws st with status := x } := by
  obtain ⟨h1, h2, h3, h4⟩ := applyPeerWrites_components ws { st with status := x }
  obtain ⟨g1, g2, g3, g4⟩ := applyPeerWrites_components ws st
  apply GaugeState.ext2
  · rw [h1, g1]
  · rw [h2, g2]
  · rw [h3, g3]
  · rw [h4]

theorem set_peers_eq (clients_table : List ClientEntry) (ps : List PeerRecord)
    (st : GaugeState) :
    set_peers clients_table ps st =
      if peersOk clients_table ps = true then
        Except.ok (applyPeerWrites (peerWrites clients_table ps) st)
      else
        Except.error (applyPeerWrites (peerWrites clients_table ps) st) := by
  induction ps generalizing st with
  | nil => rfl
  | cons p ps ih =>
    simp only [set_peers, peersOk, peerWrites]
    cases h : resolve p.peer clients_table with
    | none => simp [applyPeerWrites]
    | some n =>
      dsimp only
      rw [ih (write_peer st p n)]
      simp [applyPeerWrites]

theorem update_metrics_eq (cfg : Config) (out : String)
    (file : Except Unit (List ClientEntry)) (st : GaugeState) :
    update_metrics cfg out file st =
      match AwgShowWrapper.parse out with
      | none => st
      | some [] => { st with status := some 0 }
      | some (p :: ps) =>
        let tbl := if !(pybool cfg.clients_table_enabled) then []
                   else read_clients_table file
        let fin := applyPeerWrites (peerWrites tbl (p :: ps)) st
        if peersOk tbl (p :: ps) = true then { fin with status := some 1 } else fin := by
  unfold update_metrics try_update
  cases hp : AwgShowWrapper.parse out with
  | none => rfl
  | some l =>
    cases l with
    | nil => rfl
    | cons p ps =>
      dsimp only
      rw [set_peers_eq]
      by_cases hok :
          peersOk (if !(pybool cfg.clients_table_enabled) then []
            else read_clients_table file) (p :: ps) = true
      · rw [if_pos hok, if_pos hok]
      · rw [if_neg hok, if_neg hok]

end Exporter

theorem peersOk_nilTable (ps : List PeerRecord) : Exporter.peersOk [] ps = true := by
  induction ps with
  | nil => rfl
  | cons p ps ih => simp [Exporter.peersOk, Exporter.resolve, ih]

theorem getElem?_getD_eq (l : List String) (i : Nat) (hi : i < l.length) :
    l[i]? = some (l.getD i "") := by
  rw [List.getD_eq_getElem?_getD, List.getElem?_eq_getElem hi]
  rfl

theorem parseLines_wellformed (lines : List String)
    (h8 : ∀ l ∈ lines, 8 ≤ (pySplitWhitespace l).length) :
    AwgShowWrapper.parseLines lines = some (lines.map extractRecord) := by
  induction lines with
  | nil => rfl
  | cons line rest ih =>
    have hl : 8 ≤ (pySplitWhitespace line).length := h8 line (List.mem_cons_self line rest)
    simp only [AwgShowWrapper.parseLines]
    rw [if_pos (by omega : 6 ≤ (pySplitWhitespace line).length)]
    rw [getElem?_getD_eq _ 1 (by omega), getElem?_getD_eq _ 5 (by omega),
        getElem?_getD_eq _ 6 (by omega), getElem?_getD_eq _ 7 (by omega)]
    dsimp only
    rw [ih (fun l hm => h8 l (List.mem_cons_of_mem line hm))]
    rfl

theorem parseLines_order (lines : List String) (recs : List PeerRecord)
    (h : AwgShowWrapper.parseLines lines = some recs) :
    recs = (lines.filter acceptedLine).map extractRecord := by
  induction lines generalizing recs with
  | nil =>
    simp only [AwgShowWrapper.parseLines] at h
    cases h
    rfl
  | cons line rest ih =>
    simp only [AwgShowWrapper.parseLines] at h
    by_cases h6 : 6 ≤ (pySplitWhitespace line).length
    · rw [if_pos h6] at h
      have hacc : acceptedLine line = true := decide_eq_true h6
      rw [getElem?_getD_eq _ 1 (by omega), getElem?_getD_eq _ 5 (by omega)] at h
      by_cases h8 : 8 ≤ (pySplitWhitespace line).length
      · rw [getElem?_getD_eq _ 6 (by omega), getElem?_getD_eq _ 7 (by omega)] at h
        dsimp only at h
        rw [Option.map_eq_some'] at h
        obtain ⟨tl, htl, hrecs⟩ := h
        rw [List.filter_cons_of_pos hacc, List.map_cons, ← ih tl htl, ← hrecs]
        rfl
      · by_cases h7 : 7 ≤ (pySplitWhitespace line).length
        · rw [getElem?_getD_eq _ 6 (by omega),
            List.getElem?_eq_none (by omega : (pySplitWhitespace line).length ≤ 7)] at h
          dsimp only at h
          cases h
        · rw [List.getElem?_eq_none (by omega : (pySplitWhitespace line).length ≤ 6),
            List.getElem?_eq_none (by omega : (pySplitWhitespace line).length ≤ 7)] at h
          dsimp only at h
          cases h
    · rw [if_neg h6] at h
      have hacc : acceptedLine line = false := by
        unfold acceptedLine
        simpa using h6
      rw [List.filter_cons_of_neg (by simp [hacc])]
      exact ih recs h

theorem parseLines_skip (pre : List String) (l : String) (post : List String)
    (hshort : (pySplitWhitespace l).length < 6) :
    AwgShowWrapper.parseLines (pre ++ l :: post)
      = AwgShowWrapper.parseLines (pre ++ post) := by
  induction pre with
  | nil =>
    simp only [List.nil_append, AwgShowWrapper.parseLines]
    rw [if_neg (by omega)]
  | cons x xs ih =>
    simp only [List.cons_append, AwgShowWrapper.parseLines]
    have ih2 : AwgShowWrapper.parseLines (xs.append (l :: post))
        = AwgShowWrapper.parseLines (xs.append post) := ih
    rw [ih2]

/-- Claim C1 (code bug evidence): with the configured default value of
clients_table_enabled, the string false, Python bool applied to the string
is True, so update_metrics loads the clients table anyway and a peer whose
id matches a table entry is labeled with the table name rather than with
unidentified, contradicting the claim and the stated intent of the flag. -/
theorem C1_false_string_is_truthy :
    pybool cfgHttpFalse.clients_table_enabled = true
    ∧ (Exporter.update_metrics cfgHttpFalse reportOnePeer tableP1Alice
        emptyGauges).sent_bytes_metric ("P1", "alice") = some "200"
    ∧ (Exporter.update_metrics cfgHttpFalse reportOnePeer tableP1Alice
        emptyGauges).sent_bytes_metric ("P1", "unidentified") = none
    ∧ (Exporter.update_metrics cfgHttpFalse reportOnePeer tableP1Alice
        emptyGauges).status = some 1 := by
  refine ⟨by decide, by decide, by decide, by decide⟩

/-- Claim C2 (counterexample): a post-header line with exactly 6 whitespace
fields passes the length check of parse but the read of parts[6] raises
IndexError, so parse does not return a record for it, refuting the claim
that every input of lines with at least 6 fields yields that many records. -/
theorem C2_counterexample_sixfields :
    acceptedLine "f0 P1 f2 f3 f4 f5" = true
    ∧ AwgShowWrapper.parse reportSixFields = none := by
  refine ⟨by decide, by decide⟩

/-- Claim C2 (amended): for every input text whose post-header lines all
have at least 8 whitespace-separated fields, parse returns exactly one
record per line, mapping field 1 to the peer id, field 5 to the latest
handshake, field 6 to the received bytes and field 7 to the sent bytes. -/
theorem C2_parse_extracts (text : String) (lines : List String)
    (hl : postHeaderLines text = lines)
    (h8 : ∀ l ∈ lines, 8 ≤ (pySplitWhitespace l).length) :
    AwgShowWrapper.parse text = some (lines.map extractRecord)
    ∧ (lines.map extractRecord).length = lines.length := by
  constructor
  · show AwgShowWrapper.parseLines (postHeaderLines text) = some (lines.map extractRecord)
    rw [hl]
    exact parseLines_wellformed lines h8
  · exact List.length_map lines extractRecord

/-- Witness for C2: a concrete two-peer report parsed at its two records. -/
theorem C2_parse_extracts_witness :
    AwgShowWrapper.parse reportTwoPeers =
      some [{ peer := "P1", latest_handshake := "5", received := "100", sent := "200" },
            { peer := "P2", latest_handshake := "6", received := "300", sent := "400" }] := by
  have h := C2_parse_extracts reportTwoPeers (postHeaderLines reportTwoPeers) rfl (by decide)
  rw [h.1]
  decide

/-- Claim C3 (counterexample): a failed cycle is not a gauge no-op. With the
table flag truthy and a clients table whose second object lacks its clientId
key, the first peer is written to the gauges before the KeyError on the
second peer aborts the loop: the cycle fails (status is never set) yet the
sent_bytes gauge for the first peer changed. -/
theorem C3_counterexample_partial_writes :
    Exporter.cycleFailed
        (Exporter.try_update cfgHttpTrue reportTwoPeers tableWithBadEntry emptyGauges) = true
    ∧ (Exporter.update_metrics cfgHttpTrue reportTwoPeers tableWithBadEntry
        emptyGauges).status = emptyGauges.status
    ∧ (Exporter.update_metrics cfgHttpTrue reportTwoPeers tableWithBadEntry
        emptyGauges).sent_bytes_metric ("P1", "alice") = some "200"
    ∧ emptyGauges.sent_bytes_metric ("P1", "alice") = none := by
  refine ⟨by decide, by decide, by decide, rfl⟩

/-- Claim C3 (amended): every exception raised inside an update_metrics
cycle is caught at the top level of the cycle, so the process does not
crash; a failed cycle never updates the status gauge, though per-peer gauge
writes made before the exception point remain in place. -/
theorem C3_exception_caught (cfg : Exporter.Config) (out : String)
    (file : Except Unit (List ClientEntry)) (st st2 : GaugeState)
    (h : Exporter.try_update cfg out file st = Except.error st2) :
    Exporter.update_metrics cfg out file st = st2 ∧ st2.status = st.status := by
  constructor
  · unfold Exporter.update_metrics
    rw [h]
  · unfold Exporter.try_update at h
    cases hp : AwgShowWrapper.parse out with
    | none =>
      rw [hp] at h
      cases h
      rfl
    | some l =>
      cases l with
      | nil =>
        rw [hp] at h
        cases h
      | cons p ps =>
        rw [hp] at h
        dsimp only at h
        rw [Exporter.set_peers_eq] at h
        by_cases hok :
            Exporter.peersOk (if !(pybool cfg.clients_table_enabled) then []
              else Exporter.read_clients_table file) (p :: ps) = true
        · rw [if_pos hok] at h
          cases h
        · rw [if_neg hok] at h
          cases h
          exact (Exporter.applyPeerWrites_components _ st).2.2.2

/-- Witness for C3: the amended theorem applied to the concrete failing
cycle of the counterexample. -/
theorem C3_exception_caught_witness :
    (Exporter.update_metrics cfgHttpTrue reportTwoPeers tableWithBadEntry emptyGauges).status
      = emptyGauges.status := by
  obtain ⟨st2, h⟩ :
      ∃ st2, Exporter.try_update cfgHttpTrue reportTwoPeers tableWithBadEntry emptyGauges
        = Except.error st2 := ⟨_, rfl⟩
  have h2 := C3_exception_caught cfgHttpTrue reportTwoPeers tableWithBadEntry emptyGauges st2 h
  rw [h2.1, h2.2]

/-- Claim C4: a post-header line with fewer than 6 whitespace fields
contributes no record (removing it does not change the parse result), and
an empty or header-only input parses to the empty sequence without failing. -/
theorem C4_short_skipped_empty_ok :
    (∀ text, (pySplitlines (pyStrip text)).length ≤ 1 →
      AwgShowWrapper.parse text = some [])
    ∧ (∀ pre l post, (pySplitWhitespace l).length < 6 →
      AwgShowWrapper.parseLines (pre ++ l :: post)
        = AwgShowWrapper.parseLines (pre ++ post)) := by
  constructor
  · intro text hlen
    show AwgShowWrapper.parseLines ((pySplitlines (pyStrip text)).drop 1) = some []
    rw [List.drop_eq_nil_of_le hlen]
    rfl
  · exact parseLines_skip

/-- Witness for C4: the empty input, a header-only input, and a concrete
short line dropped from between peer lines. -/
theorem C4_witness :
    AwgShowWrapper.parse "" = some []
    ∧ AwgShowWrapper.parse "linux server awg peers 3" = some []
    ∧ AwgShowWrapper.parseLines (["f0 P1 f2 f3 f4 5 100 200"] ++ "bad line" :: [])
        = AwgShowWrapper.parseLines (["f0 P1 f2 f3 f4 5 100 200"] ++ []) := by
  refine ⟨C4_short_skipped_empty_ok.1 "" (by decide),
    C4_short_skipped_empty_ok.1 "linux server awg peers 3" (by decide),
    C4_short_skipped_empty_ok.2 ["f0 P1 f2 f3 f4 5 100 200"] "bad line" [] (by decide)⟩

/-- Claim C5: on a well-formed table, resolution returns unidentified when
no entry matches the peer id, and the clientName of the first matching
entry in table order otherwise, so among duplicate clientId entries the
first one wins. -/
theorem C5_resolve_spec :
    (∀ peer_id tbl,
      (∀ e ∈ tbl, e.clientId.isSome = true ∧ e.clientId ≠ some peer_id) →
      Exporter.resolve peer_id tbl = some "unidentified")
    ∧ (∀ peer_id pre e post name,
      (∀ e2 ∈ pre, e2.clientId.isSome = true ∧ e2.clientId ≠ some peer_id) →
      e.clientId = some peer_id → e.clientName = some name →
      Exporter.resolve peer_id (pre ++ e :: post) = some name) := by
  constructor
  · intro peer_id tbl h
    induction tbl with
    | nil => rfl
    | cons c rest ih =>
      obtain ⟨hsome, hne⟩ := h c (List.mem_cons_self c rest)
      cases hc : c.clientId with
      | none => rw [hc] at hsome; cases hsome
      | some cid =>
        rw [hc] at hne
        simp only [Exporter.resolve, hc]
        rw [if_neg (fun heq => hne (by rw [heq]))]
        exact ih (fun e he => h e (List.mem_cons_of_mem c he))
  · intro peer_id pre e post name hpre he hn
    induction pre with
    | nil =>
      simp [List.nil_append, Exporter.resolve, he, hn]
    | cons c rest ih =>
      obtain ⟨hsome, hne⟩ := hpre c (List.mem_cons_self c rest)
      cases hc : c.clientId with
      | none => rw [hc] at hsome; cases hsome
      | some cid =>
        rw [hc] at hne
        simp only [List.cons_append, Exporter.resolve, hc]
        rw [if_neg (fun heq => hne (by rw [heq]))]
        exact ih (fun e2 he2 => hpre e2 (List.mem_cons_of_mem c he2))

/-- Witness for C5: on a table with a duplicated id, an unmatched peer id
resolves to unidentified and the duplicated id resolves to the first name. -/
theorem C5_resolve_spec_witness :
    Exporter.resolve "K9" dupTable = some "unidentified"
    ∧ Exporter.resolve "K1" dupTable = some "first" := by
  constructor
  · exact C5_resolve_spec.1 "K9" dupTable (by decide)
  · exact C5_resolve_spec.2 "K1" []
      { clientId := some "K1", clientName := some "first" }
      [{ clientId := some "K2", clientName := some "second" },
       { clientId := some "K1", clientName := some "third" }]
      "first" (by intro e2 he2; cases he2) rfl rfl

/-- Claim C6: read_clients_table returns the parsed entries on a successful
read and the empty list on any read or parse failure — it never propagates
the error — and a cycle whose table file fails still completes, resolving
every peer to unidentified and setting the status gauge to 1. -/
theorem C6_clients_table_failure_graceful (cfg : Exporter.Config) (out : String)
    (st : GaugeState) (p : PeerRecord) (ps : List PeerRecord)
    (h : AwgShowWrapper.parse out = some (p :: ps)) :
    (∀ tbl, Exporter.read_clients_table (Except.ok tbl) = tbl)
    ∧ Exporter.read_clients_table (Except.error ()) = []
    ∧ (Exporter.update_metrics cfg out (Except.error ()) st).status = some 1 := by
  refine ⟨fun tbl => rfl, rfl, ?_⟩
  rw [Exporter.update_metrics_eq, h]
  dsimp only
  have htbl : (if !(pybool cfg.clients_table_enabled) then []
      else Exporter.read_clients_table (Except.error ())) = ([] : List ClientEntry) := by
    cases hpb : pybool cfg.clients_table_enabled <;>
      simp [hpb, Exporter.read_clients_table]
  rw [htbl, if_pos (peersOk_nilTable (p :: ps))]

/-- Witness for C6: a concrete one-peer cycle with a failing table file
still ends with status 1. -/
theorem C6_clients_table_failure_graceful_witness :
    (Exporter.update_metrics cfgHttpTrue reportOnePeer (Except.error ()) emptyGauges).status
      = some 1 :=
  (C6_clients_table_failure_graceful cfgHttpTrue reportOnePeer emptyGauges
    { peer := "P1", latest_handshake := "5", received := "100", sent := "200" } []
    (by decide)).2.2

/-- Claim C7: a cycle whose parsed peer sequence is empty sets the status
gauge to 0 and returns at once; the resulting state is the input state with
only the status field replaced, so no per-peer gauge is created or changed. -/
theorem C7_empty_parse_only_status (cfg : Exporter.Config) (out : String)
    (file : Except Unit (List ClientEntry)) (st : GaugeState)
    (h : AwgShowWrapper.parse out = some []) :
    Exporter.update_metrics cfg out file st = { st with status := some 0 } := by
  rw [Exporter.update_metrics_eq, h]

/-- Witness for C7: a header-only report leaves every gauge family of the
fresh registry untouched and sets status to 0. -/
theorem C7_empty_parse_only_status_witness :
    Exporter.update_metrics cfgHttpFalse "interface wg0" (Except.error ()) emptyGauges
      = { emptyGauges with status := some 0 } :=
  C7_empty_parse_only_status cfgHttpFalse "interface wg0" (Except.error ()) emptyGauges
    (by decide)

/-- Claim C8: running the update_metrics cycle twice from the same gauge
state with the same command output and the same table file contents gives
exactly the gauge state of a single run — gauge values are set, not
accumulated. -/
theorem C8_cycle_idempotent (cfg : Exporter.Config) (out : String)
    (file : Except Unit (List ClientEntry)) (st : GaugeState) :
    Exporter.update_metrics cfg out file (Exporter.update_metrics cfg out file st)
      = Exporter.update_metrics cfg out file st := by
  simp only [Exporter.update_metrics_eq]
  cases hp : AwgShowWrapper.parse out with
  | none => rfl
  | some l =>
    cases l with
    | nil => rfl
    | cons p ps =>
      dsimp only
      by_cases hok :
          Exporter.peersOk (if !(pybool cfg.clients_table_enabled) then []
            else Exporter.read_clients_table file) (p :: ps) = true
      · rw [if_pos hok, if_pos hok, Exporter.applyPeerWrites_set_status,
          Exporter.applyPeerWrites_idem]
      · rw [if_neg hok, if_neg hok, Exporter.applyPeerWrites_idem]

/-- Claim C9: in oneshot mode the main loop runs exactly one cycle and one
metrics-file write and then terminates without the inter-cycle sleep,
whatever the unrolling bound. -/
theorem C9_oneshot_once (cfg : Exporter.Config) (fuel : Nat)
    (hmode : cfg.ops_mode = "oneshot") (hfuel : 1 ≤ fuel) :
    Exporter.main_loop_events cfg fuel
      = [Exporter.LoopEvent.cycle, Exporter.LoopEvent.fileWrite] := by
  obtain ⟨n, rfl⟩ : ∃ n, fuel = n + 1 := ⟨fuel - 1, by omega⟩
  simp [Exporter.main_loop_events, Exporter.loop_iter_events, hmode]

/-- Witness for C9: the oneshot configuration with 5 iterations of fuel. -/
theorem C9_oneshot_once_witness :
    Exporter.main_loop_events cfgOneshot 5
      = [Exporter.LoopEvent.cycle, Exporter.LoopEvent.fileWrite] :=
  C9_oneshot_once cfgOneshot 5 rfl (by omega)

/-- Claim C10: whenever parse returns a sequence, that sequence lists, in
input order, exactly the extraction of the accepted post-header lines, so
the output ordering matches the order of peer lines in the report. -/
theorem C10_parse_order (text : String) (recs : List PeerRecord)
    (h : AwgShowWrapper.parse text = some recs) :
    recs = ((postHeaderLines text).filter acceptedLine).map extractRecord :=
  parseLines_order (postHeaderLines text) recs h

/-- Witness for C10: a report with a short line between two peer lines
parses to the two records in report order. -/
theorem C10_parse_order_witness :
    AwgShowWrapper.parse reportWithShortLine =
      some [{ peer := "P1", latest_handshake := "5", received := "100", sent := "200" },
            { peer := "P2", latest_handshake := "6", received := "300", sent := "400" }]
    ∧ [{ peer := "P1", latest_handshake := "5", received := "100", sent := "200" },
       { peer := "P2", latest_handshake := "6", received := "300", sent := "400" }]
      = ((postHeaderLines reportWithShortLine).filter acceptedLine).map extractRecord := by
  have h : AwgShowWrapper.parse reportWithShortLine =
      some [{ peer := "P1", latest_handshake := "5", received := "100", sent := "200" },
            { peer := "P2", latest_handshake := "6", received := "300", sent := "400" }] := by
    decide
  exact ⟨h, C10_parse_order reportWithShortLine _ h⟩
